import Mathlib

/-!
Shallow embedding of `src/Lab_1/Lab1.py`, a command-line audio-file
inspector: extension check, duration lookup (via an external decoding
capability), metadata lookup (via an external tag-reading capability),
and console presentation with exit codes.

External collaborators (filesystem, pydub, mutagen) are modelled by an
explicit `World` record describing, for the single input path of a run,
exactly the observations the program makes: file existence, library
availability, the decoder outcome, and the two tag views.  Exceptions
are modelled as `Except String` values carrying the Python `str(e)`
rendering that `main` prints.  The decoder's length is modelled in
exact integer milliseconds (pydub's `len(audio)`), so the printed
duration `ms / 1000.0` formatted with `%.3f` is modelled exactly as a
decimal string.
-/

/-- Index of the last occurrence of `c` in `l` (Python `str.rfind`),
accumulator form. -/
def lastIdxAux (c : Char) : List Char → Nat → Option Nat → Option Nat
  | [], _, acc => acc
  | x :: xs, i, acc => lastIdxAux c xs (i + 1) (if x == c then some i else acc)

/-- Index of the last occurrence of `c` in `l`, or `none`. -/
def lastIdxNat (l : List Char) (c : Char) : Option Nat :=
  lastIdxAux c l 0 none

/-- Embedding of `os.path.splitext` (POSIX): split off the final
extension of the basename at its last dot, unless every character of
the basename before that dot is itself a dot (leading dots of the
basename never start an extension). -/
def splitext (p : String) : String × String :=
  let l := p.toList
  let dirp := match lastIdxNat l '/' with
    | some s => l.take (s + 1)
    | none => []
  let base := match lastIdxNat l '/' with
    | some s => l.drop (s + 1)
    | none => l
  match lastIdxNat base '.' with
  | none => (p, "")
  | some d =>
      if (base.take d).any (fun ch => ch != '.') then
        (String.mk (dirp ++ base.take d), String.mk (base.drop d))
      else (p, "")

/-- Embedding of `str.lower` (code points of the extension are ASCII in
every case the program distinguishes). -/
def lowerStr (s : String) : String :=
  String.mk (s.toList.map Char.toLower)

/-- Embedding of `str.lstrip(".")`. -/
def lstripDot (s : String) : String :=
  String.mk (s.toList.dropWhile (fun ch => ch == '.'))

/-- `SUPPORTED_EXTS = {"mp3", "wav"}`. -/
def SUPPORTED_EXTS : List String := ["mp3", "wav"]

/-- The normalized extension `os.path.splitext(path)[1].lower().lstrip(".")`,
as computed both in `is_supported_media` and in `main`'s format line. -/
def normExt (path : String) : String :=
  lstripDot (lowerStr (splitext path).2)

/-- Embedding of `is_supported_media`. -/
def is_supported_media (path : String) : Bool :=
  SUPPORTED_EXTS.contains (normExt path)

/-- Outcome of `AudioSegment.from_file(path, format=ext)`: a decoded
segment of a given length in milliseconds, a `CouldntDecodeError`, or
any other exception (propagating with its own message). -/
inductive DecodeOutcome where
  | ok (ms : Nat)
  | couldntDecode (msg : String)
  | otherExc (msg : String)
deriving DecidableEq

/-- A value in the simplified (`easy=True`) tag view: either a
list/tuple of values (each given by its `str` rendering) or any other
value (given by its `str` rendering). -/
inductive EasyVal where
  | scalar (s : String)
  | seq (xs : List String)
deriving DecidableEq

/-- The `.text` attribute of a raw frame as `get_metadata` probes it:
either absent / not a list or tuple, or a list/tuple of values (each
given by its `str` rendering). -/
inductive RawText where
  | noText
  | textList (xs : List String)
deriving DecidableEq

/-- A raw tag frame: its `.text` probe plus its plain `str` rendering. -/
structure RawFrame where
  text : RawText
  str : String
deriving DecidableEq

/-- Everything `get_metadata` observes from mutagen on the input path.
`easy` is the item list of the simplified view (`[]` when the file
object is `None` or its tags are falsy); `fullPresent` tells whether
the raw view has truthy tags; `fullItems` is the result of calling
`.items()` on the raw tags (which may raise).  `Except.error` carries
the message of a propagating exception. -/
structure MetaSource where
  mutagenAvailable : Bool
  easy : Except String (List (String × EasyVal))
  fullPresent : Except String Bool
  fullItems : Except String (List (String × RawFrame))

/-- Everything the whole program observes from the outside world for
one input path. -/
structure World extends MetaSource where
  isFile : Bool
  pydubAvailable : Bool
  decode : DecodeOutcome

def PYDUB_MISSING_MSG : String :=
  "Бібліотеку pydub не знайдено. Встановіть її: pip install pydub"

def FFMPEG_MSG : String :=
  "Не вдалося декодувати файл через pydub/ffmpeg. Переконайтесь, що FFmpeg встановлено та додано до PATH."

def MUTAGEN_MISSING_MSG : String :=
  "Бібліотеку mutagen не знайдено. Встановіть її: pip install mutagen"

/-- Embedding of `get_duration_seconds`: raise if pydub is missing,
translate `CouldntDecodeError` into the fixed ffmpeg hint, let any
other exception propagate, and return the decoded length (kept in
milliseconds; the source divides by 1000.0). -/
def get_duration_seconds (w : World) : Except String Nat :=
  if w.pydubAvailable then
    match w.decode with
    | .ok ms => .ok ms
    | .couldntDecode _ => .error FFMPEG_MSG
    | .otherExc m => .error m
  else .error PYDUB_MISSING_MSG

/-- Resolution of a simplified-view value: a list/tuple is joined with
", ", anything else is its `str`. -/
def easyResolve : EasyVal → String
  | .scalar s => s
  | .seq xs => String.intercalate ", " xs

/-- Resolution of a raw frame: a list/tuple `.text` payload is joined
with ", ", otherwise the frame's plain `str` rendering is used. -/
def rawResolve (f : RawFrame) : String :=
  match f.text with
  | .textList xs => String.intercalate ", " xs
  | .noText => f.str

/-- Python dict assignment `d[k] = v` on an insertion-ordered
association list: overwrite in place if `k` is present, else append. -/
def dictInsert (d : List (String × String)) (k v : String) :
    List (String × String) :=
  if d.any (fun p => p.1 == k) then
    d.map (fun p => if p.1 == k then (k, v) else p)
  else d ++ [(k, v)]

/-- The loop over the simplified view's items, filling `tags_out`. -/
def easyFold (items : List (String × EasyVal)) : List (String × String) :=
  items.foldl (fun d kv => dictInsert d kv.1 (easyResolve kv.2)) []

/-- The loop over the raw view's items, filling `tags_out` (the raw
branch only runs when `tags_out` is still empty). -/
def rawFold (items : List (String × RawFrame)) : List (String × String) :=
  items.foldl (fun d kv => dictInsert d kv.1 (rawResolve kv.2)) []

/-- Embedding of `get_metadata`: raise if mutagen is missing; fill
`tags_out` from the simplified view; if it stayed empty, consult the
raw view, where an exception from `.items()` is swallowed into an
empty item list. -/
def get_metadata (src : MetaSource) : Except String (List (String × String)) :=
  if src.mutagenAvailable then
    match src.easy with
    | .error e => .error e
    | .ok items =>
        let tags_out := easyFold items
        if tags_out.isEmpty then
          match src.fullPresent with
          | .error e => .error e
          | .ok true =>
              match src.fullItems with
              | .error _ => .ok []
              | .ok rits => .ok (rawFold rits)
          | .ok false => .ok tags_out
        else .ok tags_out
  else .error MUTAGEN_MISSING_MSG

/-- Three-digit zero-padded decimal rendering of `n < 1000`: the
fractional digits `"%.3f"` prints for the value `n / 1000`. -/
def pad3 (n : Nat) : String :=
  String.mk [Nat.digitChar (n / 100 % 10), Nat.digitChar (n / 10 % 10),
             Nat.digitChar (n % 10)]

/-- The duration `ms / 1000.0` rendered with `"%.3f"`, exactly. -/
def formatDuration3 (ms : Nat) : String :=
  toString (ms / 1000) ++ "." ++ pad3 (ms % 1000)

/-- Code-point lexicographic comparison of character lists, the order
Python's `sorted` uses on strings. -/
def chLe : List Char → List Char → Bool
  | [], _ => true
  | _ :: _, [] => false
  | a :: as, b :: bs =>
      if a.toNat < b.toNat then true
      else if b.toNat < a.toNat then false
      else chLe as bs

/-- Code-point lexicographic order on strings. -/
def strLe (a b : String) : Prop := chLe a.toList b.toList = true

instance : DecidableRel strLe := fun a b =>
  inferInstanceAs (Decidable (chLe a.toList b.toList = true))

/-- `sorted` on a list of string keys. -/
def sortKeys (l : List String) : List String :=
  List.insertionSort strLe l

/-- Dict lookup `d[k]` (total, `""` default; only used on present keys). -/
def dictGet (d : List (String × String)) (k : String) : String :=
  (d.lookup k).getD ""

def NO_METADATA_MSG : String :=
  "Метадані відсутні або не підтримуються для цього файла."

/-- The metadata block `main` prints: header plus one `  - k: v` line
per key in sorted order, or the single no-metadata notice. -/
def renderMetadata (md : List (String × String)) : List String :=
  if md.isEmpty then [NO_METADATA_MSG]
  else "Метадані:" ::
    (sortKeys (md.map Prod.fst)).map (fun k => "  - " ++ k ++ ": " ++ dictGet md k)

namespace Lab1

/-- Embedding of `main` on a parsed path: the exit code and the list of
lines printed to stdout, in order. -/
def main (path : String) (w : World) : Nat × List String :=
  if w.isFile then
    if is_supported_media path then
      match get_duration_seconds w with
      | .error e =>
          (3, ["Файл: " ++ path, "Формат: " ++ normExt path,
               "Помилка при обчисленні тривалості: " ++ e])
      | .ok ms =>
          match get_metadata w.toMetaSource with
          | .error e =>
              (0, ["Файл: " ++ path, "Формат: " ++ normExt path,
                   "Тривалість: " ++ formatDuration3 ms ++ " c",
                   "Не вдалося прочитати метадані: " ++ e])
          | .ok md =>
              (0, ["Файл: " ++ path, "Формат: " ++ normExt path,
                   "Тривалість: " ++ formatDuration3 ms ++ " c"] ++
                  renderMetadata md)
    else (2, ["Непідтримуваний формат. Дозволено лише .mp3 та .wav"])
  else (1, ["Помилка: файл не знайдено — " ++ path])

end Lab1

/-! ## Helper lemmas -/

/-- Splitting a head-to-head comparison: the smaller head wins, equal
heads defer to the tails. -/
theorem chLe_cons_iff (x y : Char) (xs ys : List Char) :
    chLe (x :: xs) (y :: ys) = true ↔
      x.toNat < y.toNat ∨ (x.toNat = y.toNat ∧ chLe xs ys = true) := by
  simp only [chLe]
  split_ifs with h1 h2
  · simp [h1]
  · constructor
    · intro h; simp at h
    · rintro (h | ⟨h, _⟩) <;> omega
  · have hxy : x.toNat = y.toNat := by omega
    simp [hxy]

/-- Transitivity of the code-point lexicographic comparison. -/
theorem chLe_trans : ∀ a b c : List Char,
    chLe a b = true → chLe b c = true → chLe a c = true
  | [], _, _, _, _ => rfl
  | _ :: _, [], _, h1, _ => by simp [chLe] at h1
  | _ :: _, _ :: _, [], _, h2 => by simp [chLe] at h2
  | x :: xs, y :: ys, z :: zs, h1, h2 => by
      rw [chLe_cons_iff] at h1 h2 ⊢
      rcases h1 with h1 | ⟨h1, h1r⟩ <;> rcases h2 with h2 | ⟨h2, h2r⟩
      · exact Or.inl (by omega)
      · exact Or.inl (by omega)
      · exact Or.inl (by omega)
      · exact Or.inr ⟨by omega, chLe_trans xs ys zs h1r h2r⟩

/-- Totality of the code-point lexicographic comparison. -/
theorem chLe_total : ∀ a b : List Char, chLe a b = true ∨ chLe b a = true
  | [], _ => Or.inl rfl
  | _ :: _, [] => Or.inr rfl
  | x :: xs, y :: ys => by
      rw [chLe_cons_iff, chLe_cons_iff]
      rcases Nat.lt_trichotomy x.toNat y.toNat with h | h | h
      · exact Or.inl (Or.inl h)
      · rcases chLe_total xs ys with hr | hr
        · exact Or.inl (Or.inr ⟨h, hr⟩)
        · exact Or.inr (Or.inr ⟨h.symm, hr⟩)
      · exact Or.inr (Or.inl h)

instance : IsTrans String strLe :=
  ⟨fun a b c h1 h2 => chLe_trans a.toList b.toList c.toList h1 h2⟩

instance : IsTotal String strLe :=
  ⟨fun a b => chLe_total a.toList b.toList⟩

/-- `sortKeys` sorts with respect to the code-point order. -/
theorem sortKeys_sorted (l : List String) : List.Sorted strLe (sortKeys l) :=
  List.sorted_insertionSort strLe l

/-- `sortKeys` permutes its input. -/
theorem sortKeys_perm (l : List String) : (sortKeys l).Perm l :=
  List.perm_insertionSort strLe l

/-- Dict assignment never empties a dict. -/
theorem dictInsert_ne_nil (d : List (String × String)) (k v : String) :
    dictInsert d k v ≠ [] := by
  unfold dictInsert
  split_ifs with h
  · intro hc
    rcases d with _ | ⟨p, ds⟩
    · simp at h
    · simp at hc
  · simp

/-- Keys after dict assignment: unchanged on overwrite, the new key
appended otherwise. -/
theorem dictInsert_keys (d : List (String × String)) (k v : String) :
    (dictInsert d k v).map Prod.fst =
      if d.any (fun p => p.1 == k) then d.map Prod.fst
      else d.map Prod.fst ++ [k] := by
  unfold dictInsert
  split_ifs with h
  · rw [List.map_map]
    refine List.map_congr_left (fun p _ => ?_)
    by_cases hp : p.1 == k
    · simp only [Function.comp, hp, if_pos]
      exact (eq_of_beq hp).symm
    · simp [Function.comp, hp]
  · simp

/-- Dict assignment preserves key uniqueness. -/
theorem dictInsert_nodupKeys (d : List (String × String)) (k v : String)
    (h : (d.map Prod.fst).Nodup) :
    ((dictInsert d k v).map Prod.fst).Nodup := by
  rw [dictInsert_keys]
  split_ifs with hk
  · exact h
  · have hnotin : k ∉ d.map Prod.fst := by
      intro hmem
      rcases List.mem_map.mp hmem with ⟨p, hp, hpk⟩
      exact hk (List.any_eq_true.mpr ⟨p, hp, by simp [hpk]⟩)
    simp [List.nodup_append, h, hnotin]

/-- A fold of dict assignments over a non-empty dict stays non-empty. -/
theorem dictFold_ne_nil {α : Type} (f : α → String) (g : α → String) :
    ∀ (items : List α) (d : List (String × String)), d ≠ [] →
      items.foldl (fun acc kv => dictInsert acc (f kv) (g kv)) d ≠ []
  | [], _, hd => hd
  | x :: xs, d, _ =>
      dictFold_ne_nil f g xs (dictInsert d (f x) (g x))
        (dictInsert_ne_nil d (f x) (g x))

/-- A fold of dict assignments preserves key uniqueness. -/
theorem dictFold_nodupKeys {α : Type} (f : α → String) (g : α → String) :
    ∀ (items : List α) (d : List (String × String)),
      (d.map Prod.fst).Nodup →
      ((items.foldl (fun acc kv => dictInsert acc (f kv) (g kv)) d).map Prod.fst).Nodup
  | [], _, hd => hd
  | x :: xs, d, hd =>
      dictFold_nodupKeys f g xs (dictInsert d (f x) (g x))
        (dictInsert_nodupKeys d (f x) (g x) hd)

/-- The simplified-view loop on a non-empty item list yields a
non-empty dict. -/
theorem easyFold_ne_nil (items : List (String × EasyVal)) (hne : items ≠ []) :
    easyFold items ≠ [] := by
  rcases items with _ | ⟨x, xs⟩
  · exact absurd rfl hne
  · show (x :: xs).foldl (fun acc kv => dictInsert acc kv.1 (easyResolve kv.2)) [] ≠ []
    rw [List.foldl_cons]
    exact dictFold_ne_nil (fun kv => kv.1) (fun kv => easyResolve kv.2) xs
      (dictInsert [] x.1 (easyResolve x.2)) (dictInsert_ne_nil [] x.1 (easyResolve x.2))

/-- The simplified-view dict has unique keys. -/
theorem easyFold_nodupKeys (items : List (String × EasyVal)) :
    ((easyFold items).map Prod.fst).Nodup := by
  unfold easyFold
  exact dictFold_nodupKeys (fun kv => kv.1) (fun kv => easyResolve kv.2) items [] (by simp)

/-- The raw-view dict has unique keys. -/
theorem rawFold_nodupKeys (items : List (String × RawFrame)) :
    ((rawFold items).map Prod.fst).Nodup := by
  unfold rawFold
  exact dictFold_nodupKeys (fun kv => kv.1) (fun kv => rawResolve kv.2) items [] (by simp)

/-- Whatever mapping `get_metadata` returns has unique keys. -/
theorem get_metadata_nodupKeys (src : MetaSource) (md : List (String × String))
    (h : get_metadata src = .ok md) : (md.map Prod.fst).Nodup := by
  unfold get_metadata at h
  split_ifs at h
  · cases hsrc : src.easy with
    | error e => rw [hsrc] at h; cases h
    | ok items =>
        rw [hsrc] at h
        simp only at h
        by_cases he : (easyFold items).isEmpty
        · rw [if_pos he] at h
          cases hfp : src.fullPresent with
          | error e => rw [hfp] at h; cases h
          | ok b =>
              rw [hfp] at h
              cases b with
              | true =>
                  cases hfi : src.fullItems with
                  | error e =>
                      rw [hfi] at h
                      cases h
                      simp
                  | ok rits =>
                      rw [hfi] at h
                      cases h
                      exact rawFold_nodupKeys rits
              | false =>
                  cases h
                  exact easyFold_nodupKeys items
        · rw [if_neg he] at h
          cases h
          exact easyFold_nodupKeys items

/-! ## Concrete worlds used by the witnesses -/

/-- All collaborators healthy: a 3.000 s decode and one simplified tag. -/
def wOk : World where
  mutagenAvailable := true
  easy := .ok [("title", EasyVal.scalar "Test")]
  fullPresent := .ok false
  fullItems := .ok []
  isFile := true
  pydubAvailable := true
  decode := .ok 3000

/-- Same as `wOk` but the tag-reading capability is missing, so the
metadata lookup raises. -/
def wMetaErr : World where
  mutagenAvailable := false
  easy := .ok []
  fullPresent := .ok false
  fullItems := .ok []
  isFile := true
  pydubAvailable := true
  decode := .ok 3000

/-- The path does not reference an existing file. -/
def wNoFile : World where
  mutagenAvailable := true
  easy := .ok []
  fullPresent := .ok false
  fullItems := .ok []
  isFile := false
  pydubAvailable := true
  decode := .ok 3000

/-- The decoder raises an exception that is neither the capability
check nor `CouldntDecodeError`. -/
def wBoom : World where
  mutagenAvailable := true
  easy := .ok []
  fullPresent := .ok false
  fullItems := .ok []
  isFile := true
  pydubAvailable := true
  decode := .otherExc "boom"

/-- Simplified view empty; the raw view has truthy tags but its
`.items()` call raises. -/
def wRawErr : World where
  mutagenAvailable := true
  easy := .ok []
  fullPresent := .ok true
  fullItems := .error "broken frame"
  isFile := true
  pydubAvailable := true
  decode := .ok 3000

/-! ## Claims -/

/-- C1: for an existing supported-extension file on which the duration
lookup succeeds, if the metadata lookup raises any error then the
program prints the error detail and still exits 0, with the duration
line already printed before the error line. -/
theorem C1_metadata_failure_nonfatal (path : String) (w : World) (ms : Nat) (e : String)
    (hf : w.isFile = true) (hs : is_supported_media path = true)
    (hd : get_duration_seconds w = .ok ms)
    (hm : get_metadata w.toMetaSource = .error e) :
    Lab1.main path w =
      (0, ["Файл: " ++ path, "Формат: " ++ normExt path,
           "Тривалість: " ++ formatDuration3 ms ++ " c",
           "Не вдалося прочитати метадані: " ++ e]) := by
  unfold Lab1.main
  rw [hf, hs, hd, hm]
  simp

theorem C1_witness :
    Lab1.main "song.mp3" wMetaErr =
      (0, ["Файл: " ++ "song.mp3", "Формат: " ++ normExt "song.mp3",
           "Тривалість: " ++ formatDuration3 3000 ++ " c",
           "Не вдалося прочитати метадані: " ++ MUTAGEN_MISSING_MSG]) :=
  C1_metadata_failure_nonfatal "song.mp3" wMetaErr 3000 MUTAGEN_MISSING_MSG rfl (by decide)
    rfl rfl

/-- C2: for an existing supported-extension file, a duration-stage
failure (decoding capability missing at start, decoder parse failure,
or any other raised error) prints the error detail and exits 3; a
success prints the duration with exactly three decimal places followed
by the literal marker `" c"`. -/
theorem C2_duration_stage (path : String) (w : World)
    (hf : w.isFile = true) (hs : is_supported_media path = true) :
    match get_duration_seconds w with
    | .error e =>
        Lab1.main path w =
          (3, ["Файл: " ++ path, "Формат: " ++ normExt path,
               "Помилка при обчисленні тривалості: " ++ e])
    | .ok ms =>
        (Lab1.main path w).1 = 0 ∧
        ("Тривалість: " ++ formatDuration3 ms ++ " c") ∈ (Lab1.main path w).2 ∧
        formatDuration3 ms = toString (ms / 1000) ++ "." ++ pad3 (ms % 1000) ∧
        (pad3 (ms % 1000)).length = 3 := by
  cases hd : get_duration_seconds w with
  | error e =>
      simp only
      unfold Lab1.main
      rw [hf, hs, hd]
      simp
  | ok ms =>
      simp only
      refine ⟨?_, ?_, rfl, by simp [pad3]⟩ <;>
        · unfold Lab1.main
          rw [hf, hs, hd]
          cases get_metadata w.toMetaSource <;> simp

theorem C2_witness :
    (Lab1.main "song.mp3" wOk).1 = 0 ∧
    ("Тривалість: " ++ formatDuration3 3000 ++ " c") ∈ (Lab1.main "song.mp3" wOk).2 ∧
    formatDuration3 3000 = toString (3000 / 1000) ++ "." ++ pad3 (3000 % 1000) ∧
    (pad3 (3000 % 1000)).length = 3 :=
  C2_duration_stage "song.mp3" wOk rfl (by decide)

/-- C3: for a path that does not reference an existing file, the
program prints the file-not-found message and exits 1; the result is
the same for every world with the same missing file, so no later stage
(extension check, duration, metadata) influences it. -/
theorem C3_missing_file (path : String) (w : World) (hf : w.isFile = false) :
    Lab1.main path w = (1, ["Помилка: файл не знайдено — " ++ path]) ∧
    (∀ w2 : World, w2.isFile = false → Lab1.main path w2 = Lab1.main path w) := by
  constructor
  · unfold Lab1.main
    rw [hf]
    simp
  · intro w2 hf2
    unfold Lab1.main
    rw [hf, hf2]
    simp

theorem C3_witness :
    Lab1.main "missing.wav" wNoFile =
      (1, ["Помилка: файл не знайдено — " ++ "missing.wav"]) :=
  (C3_missing_file "missing.wav" wNoFile rfl).1

/-- C4: for an existing file whose extension is not mp3 or wav
(case-insensitively), the program prints an error and exits 2; the
result is the same for every world with the file present, so the
decoder is never consulted. -/
theorem C4_unsupported_extension (path : String) (w : World)
    (hf : w.isFile = true) (hs : is_supported_media path = false) :
    Lab1.main path w =
      (2, ["Непідтримуваний формат. Дозволено лише .mp3 та .wav"]) ∧
    (∀ w2 : World, w2.isFile = true → Lab1.main path w2 = Lab1.main path w) := by
  constructor
  · unfold Lab1.main
    rw [hf, hs]
    simp
  · intro w2 hf2
    unfold Lab1.main
    rw [hf, hf2, hs]
    simp

theorem C4_witness :
    Lab1.main "notes.txt" wOk =
      (2, ["Непідтримуваний формат. Дозволено лише .mp3 та .wav"]) :=
  (C4_unsupported_extension "notes.txt" wOk rfl (by decide)).1

/-- C5: the extension classifier is a pure total Boolean function that
holds exactly when the final extension, lower-cased and stripped of its
leading dot, is in the fixed set containing mp3 and wav, and an
extensionless path yields false. -/
theorem C5_extension_classifier (path : String) :
    (is_supported_media path = true ↔
      (normExt path = "mp3" ∨ normExt path = "wav")) ∧
    ((splitext path).2 = "" → is_supported_media path = false) := by
  constructor
  · unfold is_supported_media SUPPORTED_EXTS
    simp
  · intro h
    unfold is_supported_media normExt
    rw [h]
    decide

theorem C5_witness :
    (splitext "README").2 = "" ∧ is_supported_media "README" = false :=
  ⟨by decide, (C5_extension_classifier "README").2 (by decide)⟩

/-- C6: the metadata resolver uses the simplified view when it yields
any entry (the result then depends only on those entries, so the raw
view is not consulted), falls back to the raw view only when the
simplified view is empty, and resolves a structured raw frame from its
textual payload rather than its plain string rendering. -/
theorem C6_metadata_strategy (src : MetaSource) (hm : src.mutagenAvailable = true) :
    (∀ items, src.easy = .ok items → items ≠ [] →
        get_metadata src = .ok (easyFold items)) ∧
    (src.easy = .ok [] →
        get_metadata src =
          match src.fullPresent with
          | .error e => .error e
          | .ok true =>
              match src.fullItems with
              | .error _ => .ok []
              | .ok rits => .ok (rawFold rits)
          | .ok false => .ok []) ∧
    (∀ (xs : List String) (s : String),
        rawResolve ⟨RawText.textList xs, s⟩ = String.intercalate ", " xs) := by
  refine ⟨?_, ?_, fun xs s => rfl⟩
  · intro items he hne
    have hni : (easyFold items).isEmpty = false := by
      cases hcase : easyFold items with
      | nil => exact absurd hcase (easyFold_ne_nil items hne)
      | cons a as => rfl
    unfold get_metadata
    rw [hm, he]
    simp [hni]
  · intro he
    unfold get_metadata
    rw [hm, he]
    cases hfp : src.fullPresent with
    | error e => simp [easyFold]
    | ok b =>
        cases b with
        | true =>
            cases hfi : src.fullItems with
            | error e => simp [easyFold]
            | ok rits => simp [easyFold]
        | false => simp [easyFold]

theorem C6_witness :
    get_metadata wOk.toMetaSource =
      .ok (easyFold [("title", EasyVal.scalar "Test")]) :=
  (C6_metadata_strategy wOk.toMetaSource rfl).1 [("title", EasyVal.scalar "Test")] rfl
    (by simp)

/-- C7: list- or tuple-valued tags are resolved to a single entry whose
value joins the elements with ", ", the resolved mapping carries one
entry per key, and rendering emits exactly one line per entry plus the
header, never multiple lines for one key. -/
theorem C7_multivalued_joined (src : MetaSource) (md : List (String × String))
    (h : get_metadata src = .ok md) :
    (∀ xs : List String,
        easyResolve (EasyVal.seq xs) = String.intercalate ", " xs) ∧
    (∀ (xs : List String) (s : String),
        rawResolve ⟨RawText.textList xs, s⟩ = String.intercalate ", " xs) ∧
    (md.map Prod.fst).Nodup ∧
    (md ≠ [] → (renderMetadata md).length = md.length + 1) := by
  refine ⟨fun xs => rfl, fun xs s => rfl, get_metadata_nodupKeys src md h, ?_⟩
  intro hne
  have hni : md.isEmpty = false := by
    cases md with
    | nil => exact absurd rfl hne
    | cons a as => rfl
  unfold renderMetadata
  rw [hni]
  simp [(sortKeys_perm (md.map Prod.fst)).length_eq]

theorem C7_witness :
    (([("title", "Test")] : List (String × String)).map Prod.fst).Nodup ∧
    (renderMetadata [("title", "Test")]).length =
      ([("title", "Test")] : List (String × String)).length + 1 := by
  have h := C7_multivalued_joined wOk.toMetaSource [("title", "Test")] rfl
  exact ⟨h.2.2.1, h.2.2.2 (by simp)⟩

/-- C8: a non-empty mapping renders as a header line followed by one
"  - key: value" line per tag with the keys in code-point
lexicographic order, the output being a pure function of the mapping
(hence stable across repeated runs); an empty mapping renders as the
single no-metadata notice. -/
theorem C8_rendering_sorted (md : List (String × String)) :
    (md ≠ [] →
        renderMetadata md =
          "Метадані:" ::
            (sortKeys (md.map Prod.fst)).map
              (fun k => "  - " ++ k ++ ": " ++ dictGet md k) ∧
        List.Sorted strLe (sortKeys (md.map Prod.fst)) ∧
        (sortKeys (md.map Prod.fst)).Perm (md.map Prod.fst)) ∧
    (md = [] → renderMetadata md = [NO_METADATA_MSG]) := by
  constructor
  · intro hne
    have hni : md.isEmpty = false := by
      cases md with
      | nil => exact absurd rfl hne
      | cons a as => rfl
    refine ⟨?_, sortKeys_sorted _, sortKeys_perm _⟩
    unfold renderMetadata
    rw [hni]
    simp
  · intro h
    subst h
    rfl

theorem C8_witness :
    renderMetadata [("title", "Test")] =
      "Метадані:" ::
        (sortKeys (([("title", "Test")] : List (String × String)).map Prod.fst)).map
          (fun k => "  - " ++ k ++ ": " ++ dictGet [("title", "Test")] k) := by
  have h := C8_rendering_sorted [("title", "Test")]
  exact (h.1 (by simp)).1

/-- C9: when the simplified view yields no entries, the raw view has
truthy tags, and enumerating its items raises, the resolver swallows
the exception and returns the empty mapping, so the program prints the
no-metadata notice and exits 0 instead of reporting a metadata
failure. -/
theorem C9_raw_items_error_swallowed (path : String) (w : World) (ms : Nat) (e : String)
    (hf : w.isFile = true) (hs : is_supported_media path = true)
    (hp : w.pydubAvailable = true) (hd : w.decode = .ok ms)
    (hmut : w.mutagenAvailable = true) (he : w.easy = .ok [])
    (hfp : w.fullPresent = .ok true) (hfi : w.fullItems = .error e) :
    get_metadata w.toMetaSource = .ok [] ∧
    Lab1.main path w =
      (0, ["Файл: " ++ path, "Формат: " ++ normExt path,
           "Тривалість: " ++ formatDuration3 ms ++ " c", NO_METADATA_MSG]) := by
  have hmd : get_metadata w.toMetaSource = .ok [] := by
    unfold get_metadata
    rw [hmut, he, hfp, hfi]
    simp [easyFold]
  refine ⟨hmd, ?_⟩
  have hdur : get_duration_seconds w = .ok ms := by
    unfold get_duration_seconds
    rw [hp, hd]
    simp
  unfold Lab1.main
  rw [hf, hs, hdur, hmd]
  simp [renderMetadata, NO_METADATA_MSG]

theorem C9_witness :
    get_metadata wRawErr.toMetaSource = .ok [] ∧
    Lab1.main "song.mp3" wRawErr =
      (0, ["Файл: " ++ "song.mp3", "Формат: " ++ normExt "song.mp3",
           "Тривалість: " ++ formatDuration3 3000 ++ " c", NO_METADATA_MSG]) :=
  C9_raw_items_error_swallowed "song.mp3" wRawErr 3000 "broken frame" rfl (by decide)
    rfl rfl rfl rfl rfl rfl

/-- C10: any exception raised by the duration stage — including one
that is neither the capability-unavailable condition nor the decoder's
parse failure — is caught at the stage boundary in the dispatcher,
printed as a one-line message, and mapped to exit code 3. -/
theorem C10_duration_stage_catches_all (path : String) (w : World) (m : String)
    (hf : w.isFile = true) (hs : is_supported_media path = true)
    (hp : w.pydubAvailable = true) (hd : w.decode = .otherExc m) :
    get_duration_seconds w = .error m ∧
    Lab1.main path w =
      (3, ["Файл: " ++ path, "Формат: " ++ normExt path,
           "Помилка при обчисленні тривалості: " ++ m]) := by
  have hdur : get_duration_seconds w = .error m := by
    unfold get_duration_seconds
    rw [hp, hd]
    simp
  refine ⟨hdur, ?_⟩
  unfold Lab1.main
  rw [hf, hs, hdur]
  simp

theorem C10_witness :
    get_duration_seconds wBoom = .error "boom" ∧
    Lab1.main "song.mp3" wBoom =
      (3, ["Файл: " ++ "song.mp3", "Формат: " ++ normExt "song.mp3",
           "Помилка при обчисленні тривалості: " ++ "boom"]) :=
  C10_duration_stage_catches_all "song.mp3" wBoom "boom" rfl (by decide) rfl rfl
